import Mathlib

/-!
Verification of the JoyBind input-to-action dispatch engine.

This file gives a shallow embedding, in Lean 4, of the core logic of the
repository (deadzone math, the sequence interpreter, the button edge
detector, the sub-unit motion accumulator, the analog stick processor and
the listener lifecycle) and proves or refutes the specification's claims
about it.  Python floats are modelled as rationals; Python machine calls
(pyautogui, pygame) are modelled as trace events; exceptions are modelled
by explicit outcome values / `Except` results.

The file is organised as definitions first (each translated from the
named source function), followed by the lemmas and claim theorems.
-/

/-! ## Definitions

### Deadzone math (src/gui/app.py, `_apply_deadzone`) -/

/-- Embedding of `_apply_deadzone(value, dz)` from `src/gui/app.py`:
`if abs(value) < dz: return 0.0`, otherwise
`sign * (abs(value) - dz) / max(1.0 - dz, 1e-6)` where
`sign = 1.0 if value > 0 else -1.0`. -/
def apply_deadzone (value dz : ℚ) : ℚ :=
  if |value| < dz then 0
  else (if 0 < value then 1 else -1) * (|value| - dz) / max (1 - dz) (1 / 1000000)

/-! ### Sequence interpreter (src/actions.py, `execute_sequence`) -/

/-- A step descriptor, the tagged variant read from `step.get("action","")`
in `execute_sequence`; `unknown` covers every unrecognized tag.  Defaults
already applied by `.get` (`clicks = 3`, `ms = 100`) are carried as
explicit fields. -/
inductive Step where
  | save_mouse : Step
  | restore_mouse : Step
  | move_mouse (x y : Int) (save_restore : Bool) : Step
  | click_left : Step
  | click_right : Step
  | click_middle : Step
  | double_click : Step
  | scroll_up (clicks : Int) : Step
  | scroll_down (clicks : Int) : Step
  | key (k : String) : Step
  | delay (ms : Nat) : Step
  | unknown (tag : String) : Step
  deriving DecidableEq

/-- Trace of calls into the pyautogui injection layer.  A `click` records
the cursor position at click time. -/
inductive PyCall where
  | moveTo (x y : Int) : PyCall
  | click (button : String) (x y : Int) : PyCall
  | doubleClick (x y : Int) : PyCall
  | scroll (clicks : Int) : PyCall
  | press (k : String) : PyCall
  | sleep (ms : Nat) : PyCall
  deriving DecidableEq

/-- Interpreter state: current cursor position, the `saved_pos` local of
`execute_sequence`, and the trace of pyautogui calls made so far. -/
structure SeqState where
  pos : Int × Int
  saved : Option (Int × Int)
  calls : List PyCall
  deriving DecidableEq

/-- Outcome of executing one step, modelling the `try/except` structure of
the loop body: `ok` (no exception); `failsafe` (`pyautogui.FailSafeException`,
whole sequence returns); `error` (a non-failsafe exception at the step's
first pyautogui call, caught and logged before the step changed anything);
`errorLate` (a non-failsafe exception at the step's last pyautogui call,
caught and logged, with the effects of the step's earlier calls kept —
only `move_mouse` makes such an earlier call, the `save_restore` capture
of the cursor position that precedes its `moveTo`). -/
inductive Outcome where
  | ok : Outcome
  | failsafe : Outcome
  | error : Outcome
  | errorLate : Outcome
  deriving DecidableEq

/-- Effect of one step when it raises no exception, following the
`if/elif` chain of `execute_sequence` line by line. -/
def execStep (s : SeqState) : Step → SeqState
  | Step.save_mouse => { s with saved := some s.pos }
  | Step.restore_mouse =>
    match s.saved with
    | none => s
    | some p => { s with pos := p, saved := none,
                         calls := s.calls ++ [PyCall.moveTo p.1 p.2] }
  | Step.move_mouse x y sr =>
    let saved1 := if sr ∧ s.saved = none then some s.pos else s.saved
    { s with pos := (x, y), saved := saved1,
             calls := s.calls ++ [PyCall.moveTo x y] }
  | Step.click_left =>
    { s with calls := s.calls ++ [PyCall.click "left" s.pos.1 s.pos.2] }
  | Step.click_right =>
    { s with calls := s.calls ++ [PyCall.click "right" s.pos.1 s.pos.2] }
  | Step.click_middle =>
    { s with calls := s.calls ++ [PyCall.click "middle" s.pos.1 s.pos.2] }
  | Step.double_click =>
    { s with calls := s.calls ++ [PyCall.doubleClick s.pos.1 s.pos.2] }
  | Step.scroll_up c => { s with calls := s.calls ++ [PyCall.scroll c] }
  | Step.scroll_down c => { s with calls := s.calls ++ [PyCall.scroll (-c)] }
  | Step.key k => { s with calls := s.calls ++ [PyCall.press k] }
  | Step.delay ms => { s with calls := s.calls ++ [PyCall.sleep ms] }
  | Step.unknown _ => s

/-- The effects of one step that survive when its last pyautogui call
raises a non-failsafe exception: everything the step did before that
call.  A `move_mouse` step runs `saved_pos = pyautogui.position()` (when
`save_restore` is set and nothing is saved yet) before `pyautogui.moveTo`
can raise, so the capture persists; a `restore_mouse` step whose `moveTo`
raises reaches neither the move nor the `saved_pos = None` reset, so the
pending save stays; every other step performs at most one call, so
nothing survives. -/
def execStepPartial (s : SeqState) : Step → SeqState
  | Step.move_mouse _ _ sr =>
    { s with saved := if sr ∧ s.saved = none then some s.pos else s.saved }
  | _ => s

/-- The `for step in steps` loop of `execute_sequence`.  Returns the state
after the loop and a flag telling whether a `FailSafeException` made the
function return early (`except FailSafeException: return`).  An `error`
or `errorLate` outcome is caught and the loop continues with the next
step, keeping the partial effects in the `errorLate` case. -/
def execSteps : SeqState → List (Step × Outcome) → SeqState × Bool
  | s, [] => (s, false)
  | s, (st, o) :: rest =>
    match o with
    | Outcome.failsafe => (s, true)
    | Outcome.error => execSteps s rest
    | Outcome.errorLate => execSteps (execStepPartial s st) rest
    | Outcome.ok => execSteps (execStep s st) rest

/-- Embedding of `execute_sequence(steps)`: `saved_pos = None`, run the
loop, then auto-restore (`if saved_pos is not None: moveTo(saved_pos)`)
unless a failsafe abort returned early. -/
def execute_sequence (start : Int × Int) (steps : List (Step × Outcome)) : SeqState :=
  let r := execSteps ⟨start, none, []⟩ steps
  if r.2 then r.1
  else
    match r.1.saved with
    | none => r.1
    | some p => { r.1 with pos := p, calls := r.1.calls ++ [PyCall.moveTo p.1 p.2] }

/-! ### Button edge detector (src/controller.py, `_poll_loop`) -/

/-- One polling cycle of the button loop in `_poll_loop`, processing
buttons `0 .. n-1` in order.  `prev` is the `prev_states` dictionary
(total function, missing keys read as `0` via `.get(btn, 0)`); `current`
is `joystick.get_button`.  Returns the updated dictionary and the ordered
list of button indices passed to `on_button_press` this cycle (the rising
edges `current == 1 and previous == 0`). -/
def poll_buttons (current : Nat → Nat) : Nat → (Nat → Nat) → ((Nat → Nat) × List Nat)
  | 0, prev => (prev, [])
  | n + 1, prev =>
    let r := poll_buttons current n prev
    let cur := current n
    let fired := if cur = 1 ∧ r.1 n = 0 then r.2 ++ [n] else r.2
    ((fun b => if b = n then cur else r.1 b), fired)

/-- Runs `poll_buttons` over a list of per-cycle button-state snapshots,
collecting the fired indices of each cycle (`prev_states` persists across
cycles, as in `_poll_loop`). -/
def run_cycles (numButtons : Nat) :
    (Nat → Nat) → List (Nat → Nat) → ((Nat → Nat) × List (List Nat))
  | prev, [] => (prev, [])
  | prev, c :: rest =>
    let r := poll_buttons c numButtons prev
    let rr := run_cycles numButtons r.1 rest
    (rr.1, r.2 :: rr.2)

/-- One iteration of the `while self._running` loop in `_poll_loop`, at
cycle granularity: the button states sampled this cycle and whether one of
the user callbacks (`on_button_press` / `on_axes_update`) raises an
exception during the cycle. -/
structure PollCycle where
  states : Nat → Nat
  raises : Bool

/-- The `while self._running` loop of `_poll_loop` over a list of cycles.
Returns the final `prev_states`, the per-cycle fired lists of the cycles
that actually ran, and the value of `self._running` after the loop (the
`except` handlers `break`, and line 218 sets `self._running = False` on
every exit path). -/
def poll_loop (numButtons : Nat) :
    (Nat → Nat) → List PollCycle → ((Nat → Nat) × List (List Nat) × Bool)
  | prev, [] => (prev, [], false)
  | prev, c :: rest =>
    let r := poll_buttons c.states numButtons prev
    if c.raises then (r.1, [r.2], false)
    else
      let rr := poll_loop numButtons r.1 rest
      (rr.1, r.2 :: rr.2.1, rr.2.2)

/-! ### Motion accumulator (src/gui/app.py, `_on_axes_update` lines 768-779) -/

/-- Python `int()` applied to a float: truncation toward zero, the floor
for non-negative arguments and the ceiling for negative ones. -/
def pyInt (q : ℚ) : ℤ := if 0 ≤ q then ⌊q⌋ else ⌈q⌉

/-- One accumulator update for one channel, the pattern
`acc += d; i = int(acc); acc -= i` of lines 769-772: returns the new
fractional remainder and the whole-unit part split off this cycle. -/
def acc_step (acc delta : ℚ) : ℚ × ℤ :=
  (acc + delta - pyInt (acc + delta), pyInt (acc + delta))

/-- Iterates `acc_step` over a list of per-cycle deltas for one channel,
collecting the whole-unit part of every cycle. -/
def run_acc : ℚ → List ℚ → (ℚ × List ℤ)
  | acc, [] => (acc, [])
  | acc, d :: rest =>
    let r := acc_step acc d
    let rr := run_acc r.1 rest
    (rr.1, r.2 :: rr.2)

/-! ### Analog stick processor (src/gui/app.py, `_on_axes_update`) -/

/-- A direction binding dictionary: `type` (read with default `"none"`),
`key` (read with default `""`; the Python truthiness test `b.get("key")`
is the test for a non-empty string) and `sensitivity` (read with default
`600`). -/
structure Binding where
  btype : String
  key : String
  sensitivity : ℚ
  deriving DecidableEq

/-- A stick configuration as consumed by `_on_axes_update`: two axis
indices, a deadzone, and the four direction bindings.  The fields are
already-parsed values (the `int()`/`float()` conversions of lines 718-720
succeed; a parse failure only skips the stick like an out-of-range index
does). -/
structure Stick where
  axis_x : Int
  axis_y : Int
  deadzone : ℚ
  up : Binding
  down : Binding
  left : Binding
  right : Binding
  deriving DecidableEq

/-- Python list subscription `l[i]` for a possibly negative index:
a negative index is shifted by the length (wrap-around); `none` models an
`IndexError`. -/
def pyGet (l : List ℚ) (i : Int) : Option ℚ :=
  let j : Int := if 0 ≤ i then i else (l.length : Int) + i
  if 0 ≤ j then l.get? j.toNat else none

/-- Continuous binding types, the membership test
`btype in ("mouse_x", "mouse_y", "scroll_v", "scroll_h")`. -/
def isContinuous (t : String) : Bool :=
  t == "mouse_x" || t == "mouse_y" || t == "scroll_v" || t == "scroll_h"

/-- The per-cycle continuous deltas `dx, dy, sv, sh` of `_on_axes_update`. -/
structure Deltas where
  dx : ℚ
  dy : ℚ
  sv : ℚ
  sh : ℚ
  deriving DecidableEq

/-- Adds `delta` to the channel selected by the binding type, mirroring
the `if/elif` chain on `btype` at lines 743-746. -/
def addDelta (d : Deltas) (btype : String) (delta : ℚ) : Deltas :=
  if btype == "mouse_x" then { d with dx := d.dx + delta }
  else if btype == "mouse_y" then { d with dy := d.dy + delta }
  else if btype == "scroll_v" then { d with sv := d.sv + delta }
  else if btype == "scroll_h" then { d with sh := d.sh + delta }
  else d

/-- The inner `for binding in (pos_b, neg_b)` loop of lines 735-747 for
one axis: the first binding of the pair with a continuous type receives
`scaled * max(0.1, sensitivity) / 60.0` and the loop breaks. -/
def axisContinuous (d : Deltas) (scaled : ℚ) (neg_b pos_b : Binding) : Deltas :=
  if isContinuous pos_b.btype then
    addDelta d pos_b.btype (scaled * max (1/10) pos_b.sensitivity / 60)
  else if isContinuous neg_b.btype then
    addDelta d neg_b.btype (scaled * max (1/10) neg_b.sensitivity / 60)
  else d

/-- One direction's contribution to the held-key set (lines 750-758):
the key is held when the binding type is `"key"`, the key name is
non-empty, and the signed deadzone-applied axis value for that direction
is strictly positive. -/
def heldOne (b : Binding) (axis_val : ℚ) : Finset String :=
  if b.btype = "key" ∧ b.key ≠ "" ∧ 0 < axis_val then {b.key} else ∅

/-- Processing of one stick inside the `for stick in sticks` loop of
`_on_axes_update` (lines 716-758): skip the stick when either axis index
is `≥ len(axis_values)`; otherwise subscript the axis vector (Python
semantics: negative indices wrap, too-negative indices raise `IndexError`,
modelled as `Except.error`), apply the deadzone, accumulate continuous
deltas when `mouse_enabled`, and compute the stick's held keys. -/
def processStick (mouse_enabled : Bool) (axes : List ℚ) (stick : Stick) :
    Except Unit (Deltas × Finset String) :=
  if stick.axis_x ≥ (axes.length : Int) ∨ stick.axis_y ≥ (axes.length : Int) then
    Except.ok (⟨0, 0, 0, 0⟩, ∅)
  else
    match pyGet axes stick.axis_x with
    | none => Except.error ()
    | some vx =>
      match pyGet axes stick.axis_y with
      | none => Except.error ()
      | some vy =>
        let sx := apply_deadzone vx stick.deadzone
        let sy := apply_deadzone vy stick.deadzone
        let d : Deltas :=
          if mouse_enabled then
            axisContinuous (axisContinuous ⟨0, 0, 0, 0⟩ sx stick.left stick.right)
              sy stick.up stick.down
          else ⟨0, 0, 0, 0⟩
        let held := heldOne stick.up (-sy) ∪ heldOne stick.down sy ∪
                    heldOne stick.left (-sx) ∪ heldOne stick.right sx
        Except.ok (d, held)

/-- The whole `for stick in sticks` loop: sums the continuous deltas and
unions the held keys of all sticks, propagating an `IndexError` from any
stick (it escapes `_on_axes_update`). -/
def gatherSticks (mouse_enabled : Bool) (axes : List ℚ) :
    List Stick → Except Unit (Deltas × Finset String)
  | [] => Except.ok (⟨0, 0, 0, 0⟩, ∅)
  | s :: rest =>
    match processStick mouse_enabled axes s with
    | Except.error e => Except.error e
    | Except.ok (d, h) =>
      match gatherSticks mouse_enabled axes rest with
      | Except.error e => Except.error e
      | Except.ok (d2, h2) =>
        Except.ok (⟨d.dx + d2.dx, d.dy + d2.dy, d.sv + d2.sv, d.sh + d2.sh⟩, h ∪ h2)

/-- The persistent analog state of the GUI object: the four accumulators
`_acc_x, _acc_y, _acc_sv, _acc_sh` and the held-key set `_held_keys`. -/
structure AnalogState where
  acc_x : ℚ
  acc_y : ℚ
  acc_sv : ℚ
  acc_sh : ℚ
  held : Finset String
  deriving DecidableEq

/-- Continuous output calls emitted at the end of a cycle. -/
inductive OutCall where
  | moveRel (dx dy : ℤ) : OutCall
  | scrollV (c : ℤ) : OutCall
  | scrollH (c : ℤ) : OutCall
  deriving DecidableEq

/-- Result of one `_on_axes_update` cycle: the new object state, the keys
passed to `key_combo_up` and to `key_combo_down` (sets: the code iterates
over the set differences `held - new` and `new - held`), and the
continuous motion calls issued. -/
structure CycleResult where
  state : AnalogState
  keyUps : Finset String
  keyDowns : Finset String
  moves : List OutCall
  deriving DecidableEq

/-- Embedding of `_on_axes_update(axis_values)`: zero the accumulators
when `enabled` is false; run the stick loop; diff the held-key sets; when
`enabled`, run the four accumulators and emit `move_mouse_relative` /
`scroll_v_relative` / `scroll_h_relative` for the non-zero whole parts.
`Except.error` models an uncaught `IndexError` escaping to `_poll_loop`. -/
def on_axes_update (mouse_enabled : Bool) (sticks : List Stick) (axes : List ℚ)
    (st : AnalogState) : Except Unit CycleResult :=
  let st0 := if mouse_enabled then st
             else { st with acc_x := 0, acc_y := 0, acc_sv := 0, acc_sh := 0 }
  match gatherSticks mouse_enabled axes sticks with
  | Except.error e => Except.error e
  | Except.ok (d, new_held) =>
    let ups := st0.held \ new_held
    let downs := new_held \ st0.held
    if mouse_enabled then
      let rx := acc_step st0.acc_x d.dx
      let ry := acc_step st0.acc_y d.dy
      let rv := acc_step st0.acc_sv d.sv
      let rh := acc_step st0.acc_sh d.sh
      let moves :=
        (if rx.2 ≠ 0 ∨ ry.2 ≠ 0 then [OutCall.moveRel rx.2 ry.2] else []) ++
        (if rv.2 ≠ 0 then [OutCall.scrollV rv.2] else []) ++
        (if rh.2 ≠ 0 then [OutCall.scrollH rh.2] else [])
      Except.ok ⟨⟨rx.1, ry.1, rv.1, rh.1, new_held⟩, ups, downs, moves⟩
    else
      Except.ok ⟨{ st0 with held := new_held }, ups, downs, []⟩

/-- Runs `on_axes_update` over successive cycles of raw axis snapshots,
collecting `(keyUps, keyDowns, moves)` per cycle. -/
def run_axes (mouse_enabled : Bool) (sticks : List Stick) :
    AnalogState → List (List ℚ) →
      Except Unit (AnalogState × List (Finset String × Finset String × List OutCall))
  | st, [] => Except.ok (st, [])
  | st, a :: rest =>
    match on_axes_update mouse_enabled sticks a st with
    | Except.error e => Except.error e
    | Except.ok r =>
      match run_axes mouse_enabled sticks r.state rest with
      | Except.error e => Except.error e
      | Except.ok (fin, logs) => Except.ok (fin, (r.keyUps, r.keyDowns, r.moves) :: logs)

/-! ### Listener lifecycle (src/controller.py, `start`) -/

/-- The three `start()` failure modes of `ControllerListener.start`. -/
inductive StartError where
  | noDeviceFound : StartError
  | indexOutOfRange : StartError
  | deviceInitError : StartError
  deriving DecidableEq

/-- Result of `start()`: the returned `(success, message)` pair modelled
as a success flag plus error kind, and the `_running` flag afterwards. -/
structure StartResult where
  success : Bool
  err : Option StartError
  running : Bool
  deriving DecidableEq

/-- Embedding of `ControllerListener.start`: already-running short
circuit, then the `total == 0`, `index >= total` and device-open checks of
lines 116-143.  `openOk` tells whether `pygame.joystick.Joystick(...)`
and `.init()` succeed (their `pygame.error` is caught and returned). -/
def startListener (running : Bool) (total : Nat) (index : Nat) (openOk : Bool) :
    StartResult :=
  if running then ⟨true, none, running⟩
  else if total = 0 then ⟨false, some StartError.noDeviceFound, false⟩
  else if index ≥ total then ⟨false, some StartError.indexOutOfRange, false⟩
  else if !openOk then ⟨false, some StartError.deviceInitError, false⟩
  else ⟨true, none, true⟩

/-! ## Lemmas and claim theorems

### C1 — deadzone math -/

lemma deadzone_denom_pos (dz : ℚ) : 0 < max (1 - dz) (1 / 1000000) :=
  lt_of_lt_of_le (by norm_num) (le_max_right _ _)

lemma abs_apply_deadzone (v dz : ℚ) (h : dz ≤ |v|) :
    |apply_deadzone v dz| = (|v| - dz) / max (1 - dz) (1 / 1000000) := by
  have hD := deadzone_denom_pos dz
  rw [apply_deadzone, if_neg (not_lt.2 h), abs_div, abs_of_pos hD, abs_mul]
  have hnum : (0 : ℚ) ≤ |v| - dz := by linarith
  rcases le_or_lt v 0 with hv | hv
  · rw [if_neg (not_lt.2 hv)]
    rw [abs_neg, abs_one, one_mul, abs_of_nonneg hnum]
  · rw [if_pos hv, abs_one, one_mul, abs_of_nonneg hnum]

/-- C1 counterexample: at `v = 1/2`, `dz = 1/2` the function returns `0`
even though `|v| < dz` is false, so "returns 0 if and only if `|v| < dz`"
fails at the boundary `|v| = dz`. -/
theorem C1_counterexample :
    apply_deadzone (1/2) (1/2) = 0 ∧ ¬ (|(1/2 : ℚ)| < 1/2) := by
  constructor
  · rw [apply_deadzone]
    rw [if_neg (by rw [abs_of_pos (by norm_num : (0:ℚ) < 1/2)]; norm_num)]
    rw [abs_of_pos (by norm_num : (0:ℚ) < 1/2)]
    norm_num
  · rw [abs_of_pos (by norm_num : (0:ℚ) < 1/2)]
    norm_num

/-- C1 (amended): for `dz ∈ [0,1)` and `v ∈ [-1,1]`,
`apply_deadzone v dz = 0` iff `|v| ≤ dz` (non-strict at the boundary);
for `|v| > dz` the result has the sign of `v`; the absolute value of the
result lies in `[0,1]`; and the absolute result is strictly increasing in
`|v|` on the remaining travel `[dz, 1]`. -/
theorem C1_amended (dz v : ℚ) (hdz0 : 0 ≤ dz) (hdz1 : dz < 1)
    (hv1 : -1 ≤ v) (hv2 : v ≤ 1) :
    (apply_deadzone v dz = 0 ↔ |v| ≤ dz) ∧
    (dz < |v| → (0 < v → 0 < apply_deadzone v dz) ∧
                (v < 0 → apply_deadzone v dz < 0)) ∧
    |apply_deadzone v dz| ≤ 1 ∧
    (∀ w : ℚ, dz ≤ |v| → |v| < |w| → |w| ≤ 1 →
      |apply_deadzone v dz| < |apply_deadzone w dz|) := by
  have hD := deadzone_denom_pos dz
  have hDne : max (1 - dz) (1 / 1000000) ≠ 0 := ne_of_gt hD
  have habs1 : |v| ≤ 1 := abs_le.2 ⟨hv1, hv2⟩
  refine ⟨?_, ?_, ?_, ?_⟩
  · constructor
    · intro h0
      by_contra hgt
      push_neg at hgt
      have h := abs_apply_deadzone v dz (le_of_lt hgt)
      rw [h0, abs_zero] at h
      have := (div_eq_zero_iff.1 h.symm).resolve_right hDne
      linarith
    · intro hle
      rcases lt_or_eq_of_le hle with hlt | heq
      · rw [apply_deadzone, if_pos hlt]
      · rw [apply_deadzone, if_neg (by rw [heq]; exact lt_irrefl dz)]
        rw [heq, sub_self, mul_zero, zero_div]
  · intro hgt
    have hnum : 0 < |v| - dz := by linarith
    have hfrac : 0 < (|v| - dz) / max (1 - dz) (1 / 1000000) := div_pos hnum hD
    constructor
    · intro hv
      rw [apply_deadzone, if_neg (not_lt.2 (le_of_lt hgt)), if_pos hv]
      rw [one_mul]
      exact hfrac
    · intro hv
      rw [apply_deadzone, if_neg (not_lt.2 (le_of_lt hgt)), if_neg (not_lt.2 (le_of_lt hv))]
      rw [neg_one_mul, neg_div]
      exact neg_lt_zero.2 hfrac
  · rcases lt_or_le (|v|) dz with hlt | hge
    · rw [apply_deadzone, if_pos hlt, abs_zero]
      norm_num
    · rw [abs_apply_deadzone v dz hge]
      rw [div_le_one hD]
      calc |v| - dz ≤ 1 - dz := by linarith
        _ ≤ max (1 - dz) (1 / 1000000) := le_max_left _ _
  · intro w hv hvw hw1
    have hwge : dz ≤ |w| := le_of_lt (lt_of_le_of_lt hv hvw)
    rw [abs_apply_deadzone v dz hv, abs_apply_deadzone w dz hwge]
    rw [div_lt_div_iff₀ hD hD]
    nlinarith [abs_nonneg v]

/-- Concrete instantiation of `C1_amended` at `dz = 1/4`, `v = 1/2`,
`w = 3/4`. -/
theorem C1_amended_witness :
    |apply_deadzone (1/2) (1/4)| < |apply_deadzone (3/4) (1/4)| := by
  have h := C1_amended (1/4) (1/2) (by norm_num) (by norm_num)
    (by norm_num) (by norm_num)
  refine h.2.2.2 (3/4) ?_ ?_ ?_
  · rw [abs_of_pos (by norm_num : (0:ℚ) < 1/2)]; norm_num
  · rw [abs_of_pos (by norm_num : (0:ℚ) < 1/2),
        abs_of_pos (by norm_num : (0:ℚ) < 3/4)]
    norm_num
  · rw [abs_of_pos (by norm_num : (0:ℚ) < 3/4)]; norm_num

/-! ### C2, C3, C4 — sequence interpreter -/

lemma execSteps_no_failsafe (steps : List (Step × Outcome)) :
    ∀ s : SeqState, (∀ p ∈ steps, p.2 ≠ Outcome.failsafe) →
      (execSteps s steps).2 = false := by
  induction steps with
  | nil => intro s _; rfl
  | cons hd tl ih =>
    intro s hnf
    obtain ⟨st, o⟩ := hd
    cases o with
    | failsafe => exact absurd rfl (hnf (st, Outcome.failsafe) (List.mem_cons_self _ _))
    | error => exact ih s (fun p hp => hnf p (List.mem_cons_of_mem _ hp))
    | errorLate =>
      exact ih (execStepPartial s st) (fun p hp => hnf p (List.mem_cons_of_mem _ hp))
    | ok => exact ih (execStep s st) (fun p hp => hnf p (List.mem_cons_of_mem _ hp))

lemma execSteps_failsafe_at (pre : List (Step × Outcome)) :
    ∀ (s : SeqState) (st : Step) (post : List (Step × Outcome)),
      (∀ p ∈ pre, p.2 ≠ Outcome.failsafe) →
      execSteps s (pre ++ (st, Outcome.failsafe) :: post)
        = ((execSteps s pre).1, true) := by
  induction pre with
  | nil => intro s st post _; rfl
  | cons hd tl ih =>
    intro s st post hnf
    obtain ⟨st0, o⟩ := hd
    cases o with
    | failsafe => exact absurd rfl (hnf (st0, Outcome.failsafe) (List.mem_cons_self _ _))
    | error =>
      simpa [execSteps] using ih s st post (fun p hp => hnf p (List.mem_cons_of_mem _ hp))
    | errorLate =>
      simpa [execSteps] using
        ih (execStepPartial s st0) st post (fun p hp => hnf p (List.mem_cons_of_mem _ hp))
    | ok =>
      simpa [execSteps] using
        ih (execStep s st0) st post (fun p hp => hnf p (List.mem_cons_of_mem _ hp))

/-- C2: if no step causes a failsafe abort and `saved_pos` is still set
after the last step, `execute_sequence` appends a final `moveTo` back to
the saved position and the cursor ends there; in particular the sequence
`[move_mouse(500,300,save_restore=true), click_left]` from `(100,100)`
clicks at `(500,300)` and restores the cursor to `(100,100)`. -/
theorem C2_auto_restore :
    (∀ (start : Int × Int) (steps : List (Step × Outcome)) (q : Int × Int),
      (∀ p ∈ steps, p.2 ≠ Outcome.failsafe) →
      (execSteps ⟨start, none, []⟩ steps).1.saved = some q →
      (execute_sequence start steps).pos = q ∧
      (execute_sequence start steps).calls
        = (execSteps ⟨start, none, []⟩ steps).1.calls ++ [PyCall.moveTo q.1 q.2]) ∧
    execute_sequence (100, 100)
        [(Step.move_mouse 500 300 true, Outcome.ok), (Step.click_left, Outcome.ok)]
      = ⟨(100, 100), some (100, 100),
         [PyCall.moveTo 500 300, PyCall.click "left" 500 300, PyCall.moveTo 100 100]⟩ := by
  constructor
  · intro start steps q hnf hsaved
    have hab := execSteps_no_failsafe steps ⟨start, none, []⟩ hnf
    rw [execute_sequence]
    simp only [hab, Bool.false_eq_true, if_false, hsaved]
    exact ⟨trivial, trivial⟩
  · rfl

/-- Witness for the universally quantified part of `C2_auto_restore`,
at the legacy `save_mouse` form. -/
theorem C2_auto_restore_witness :
    (execute_sequence (7, 9)
        [(Step.save_mouse, Outcome.ok), (Step.move_mouse 1 2 false, Outcome.ok)]).pos
      = (7, 9) :=
  (C2_auto_restore.1 (7, 9)
    [(Step.save_mouse, Outcome.ok), (Step.move_mouse 1 2 false, Outcome.ok)]
    (7, 9) (by decide) (by decide)).1

/-- C3: a failsafe abort at any step makes `execute_sequence` return the
state reached just before that step: the remaining steps contribute
nothing, no auto-restore `moveTo` is appended, and the captured
`saved_pos` is discarded unused. -/
theorem C3_failsafe_abort :
    ∀ (start : Int × Int) (pre : List (Step × Outcome)) (st : Step)
      (post : List (Step × Outcome)),
      (∀ p ∈ pre, p.2 ≠ Outcome.failsafe) →
      execute_sequence start (pre ++ (st, Outcome.failsafe) :: post)
        = (execSteps ⟨start, none, []⟩ pre).1 := by
  intro start pre st post hnf
  rw [execute_sequence]
  simp only [execSteps_failsafe_at pre ⟨start, none, []⟩ st post hnf, if_true]

/-- Witness for `C3_failsafe_abort`: a sequence that saved the cursor and
then hit the failsafe ends with no restore call and no later steps. -/
theorem C3_failsafe_abort_witness :
    execute_sequence (0, 0)
        [(Step.click_left, Outcome.ok), (Step.save_mouse, Outcome.ok),
         (Step.click_left, Outcome.failsafe), (Step.click_right, Outcome.ok)]
      = ⟨(0, 0), some (0, 0), [PyCall.click "left" 0 0]⟩ :=
  (C3_failsafe_abort (0, 0)
      [(Step.click_left, Outcome.ok), (Step.save_mouse, Outcome.ok)]
      Step.click_left [(Step.click_right, Outcome.ok)] (by decide)).trans (by decide)

/-- C4 counterexample: a `move_mouse(500, 300, save_restore := true)` step
whose `moveTo` raises a non-failsafe exception after the position capture
is not a no-op: the surviving capture triggers the final auto-restore, so
the one-step run ends with a `moveTo (100, 100)` call and `saved_pos` set,
while the run with the broken step removed makes no call at all. -/
theorem C4_counterexample :
    execute_sequence (100, 100) [(Step.move_mouse 500 300 true, Outcome.errorLate)]
        = ⟨(100, 100), some (100, 100), [PyCall.moveTo 100 100]⟩ ∧
    execute_sequence (100, 100) ([] : List (Step × Outcome))
        = ⟨(100, 100), none, []⟩ ∧
    execute_sequence (100, 100) [(Step.move_mouse 500 300 true, Outcome.errorLate)]
        ≠ execute_sequence (100, 100) ([] : List (Step × Outcome)) := by
  refine ⟨by decide, by decide, by decide⟩

/-- C4 (amended): a step that raises a non-failsafe exception, and a step
with an unrecognized tag, never abort the sequence — execution continues
with the remaining steps — but the broken step is a no-op only as far as
it had not yet acted.  A step whose exception precedes any effect and an
unknown step are exact no-ops; a `move_mouse` step with
`save_restore = true` at the head of a sequence whose `moveTo` raises
after the capture behaves exactly like a legacy `save_mouse` step, so the
captured position persists and the sequence still auto-restores to it. -/
theorem C4_per_step_isolation_amended :
    ∀ (start : Int × Int) (st : Step) (x y : Int) (tag : String)
      (rest : List (Step × Outcome)),
      execute_sequence start ((st, Outcome.error) :: rest)
          = execute_sequence start rest ∧
      execute_sequence start ((Step.unknown tag, Outcome.ok) :: rest)
          = execute_sequence start rest ∧
      execute_sequence start ((Step.move_mouse x y true, Outcome.errorLate) :: rest)
          = execute_sequence start ((Step.save_mouse, Outcome.ok) :: rest) := by
  intro start st x y tag rest
  exact ⟨rfl, rfl, rfl⟩

/-! ### C5, C10 — button edge detector and polling loop -/

lemma poll_buttons_prev (current : Nat → Nat) :
    ∀ (n : Nat) (prev : Nat → Nat) (b : Nat),
      (poll_buttons current n prev).1 b = if b < n then current b else prev b := by
  intro n
  induction n with
  | zero =>
    intro prev b
    simp [poll_buttons]
  | succ n ih =>
    intro prev b
    simp only [poll_buttons]
    rcases eq_or_ne b n with hb | hb
    · subst hb
      simp [Nat.lt_succ_self]
    · simp only [if_neg hb]
      rw [ih prev b]
      by_cases hlt : b < n
      · rw [if_pos hlt, if_pos (Nat.lt_succ_of_lt hlt)]
      · rw [if_neg hlt, if_neg (by omega)]

lemma poll_buttons_count (current : Nat → Nat) :
    ∀ (n : Nat) (prev : Nat → Nat) (b : Nat),
      (poll_buttons current n prev).2.count b
        = if b < n ∧ current b = 1 ∧ prev b = 0 then 1 else 0 := by
  intro n
  induction n with
  | zero =>
    intro prev b
    simp [poll_buttons]
  | succ n ih =>
    intro prev b
    have hpn : (poll_buttons current n prev).1 n = prev n := by
      rw [poll_buttons_prev current n prev n]
      simp
    simp only [poll_buttons]
    by_cases hc : current n = 1 ∧ (poll_buttons current n prev).1 n = 0
    · rw [if_pos hc, List.count_append, ih prev b]
      rw [hpn] at hc
      rcases eq_or_ne b n with hb | hb
      · subst hb
        have h1 : ¬ (b < b ∧ current b = 1 ∧ prev b = 0) := fun h => absurd h.1 (lt_irrefl b)
        have h2 : b < b + 1 ∧ current b = 1 ∧ prev b = 0 := ⟨Nat.lt_succ_self b, hc.1, hc.2⟩
        rw [if_neg h1, if_pos h2]
        simp
      · have h3 : (b < n + 1 ∧ current b = 1 ∧ prev b = 0)
            ↔ (b < n ∧ current b = 1 ∧ prev b = 0) := by
          constructor
          · rintro ⟨h, hr⟩; exact ⟨by omega, hr⟩
          · rintro ⟨h, hr⟩; exact ⟨by omega, hr⟩
        rw [if_congr h3 rfl rfl]
        have h4 : List.count b [n] = 0 := by
          simp [List.count_singleton']
          omega
        rw [h4, Nat.add_zero]
    · rw [if_neg hc, ih prev b]
      rw [hpn] at hc
      rcases eq_or_ne b n with hb | hb
      · subst hb
        have h1 : ¬ (b < b ∧ current b = 1 ∧ prev b = 0) := fun h => absurd h.1 (lt_irrefl b)
        have h2 : ¬ (b < b + 1 ∧ current b = 1 ∧ prev b = 0) := fun h => hc ⟨h.2.1, h.2.2⟩
        rw [if_neg h1, if_neg h2]
      · have h3 : (b < n + 1 ∧ current b = 1 ∧ prev b = 0)
            ↔ (b < n ∧ current b = 1 ∧ prev b = 0) := by
          constructor
          · rintro ⟨h, hr⟩; exact ⟨by omega, hr⟩
          · rintro ⟨h, hr⟩; exact ⟨by omega, hr⟩
        rw [if_congr h3 rfl rfl]

/-- C5: in every polling cycle, the callback receives button `b` exactly
once when `current b = 1` and the stored previous state is `0`, and zero
times otherwise, and `prev_states[b]` is always overwritten with the
current state; for the single-button state sequence `[0,0,1,1,0,1]` the
callback fires exactly at the third and sixth cycles (the two rising
edges), never on sustained `1`. -/
theorem C5_edge_detection :
    (∀ (prev current : Nat → Nat) (n b : Nat), b < n →
      ((poll_buttons current n prev).2.count b
          = if current b = 1 ∧ prev b = 0 then 1 else 0) ∧
      (poll_buttons current n prev).1 b = current b) ∧
    (run_cycles 1 (fun _ => 0)
        [fun _ => 0, fun _ => 0, fun _ => 1, fun _ => 1, fun _ => 0, fun _ => 1]).2
      = [[], [], [0], [], [], [0]] := by
  constructor
  · intro prev current n b hb
    constructor
    · rw [poll_buttons_count current n prev b]
      by_cases hc : current b = 1 ∧ prev b = 0
      · rw [if_pos hc, if_pos ⟨hb, hc.1, hc.2⟩]
      · rw [if_neg hc, if_neg (fun h => hc ⟨h.2.1, h.2.2⟩)]
    · rw [poll_buttons_prev current n prev b, if_pos hb]
  · rfl

/-- Witness for `C5_edge_detection` at one button, current state `1`,
previous state `0`: the callback fires exactly once. -/
theorem C5_edge_detection_witness :
    (poll_buttons (fun _ => 1) 1 (fun _ => 0)).2.count 0 = 1 :=
  ((C5_edge_detection.1 (fun _ => 0) (fun _ => 1) 1 0 Nat.one_pos).1).trans (by decide)

/-- C10: if a callback raises during some cycle, the polling loop runs
exactly the cycles up to and including that one (later cycles never run)
and `_running` is `false` afterwards: the listener stops permanently
instead of retrying. -/
theorem C10_callback_exception :
    ∀ (numButtons : Nat) (prev : Nat → Nat) (pre : List PollCycle) (c : PollCycle)
      (post : List PollCycle),
      (∀ x ∈ pre, x.raises = false) → c.raises = true →
      poll_loop numButtons prev (pre ++ c :: post)
          = poll_loop numButtons prev (pre ++ [c]) ∧
      (poll_loop numButtons prev (pre ++ c :: post)).2.1.length = pre.length + 1 ∧
      (poll_loop numButtons prev (pre ++ c :: post)).2.2 = false := by
  intro numButtons prev pre c post
  induction pre generalizing prev with
  | nil =>
    intro _ hc
    simp [poll_loop, hc]
  | cons hd tl ih =>
    intro hpre hc
    have hhd : hd.raises = false := hpre hd (List.mem_cons_self _ _)
    have ihr := ih ((poll_buttons hd.states numButtons prev).1)
      (fun x hx => hpre x (List.mem_cons_of_mem _ hx)) hc
    simp only [List.cons_append, poll_loop, hhd, Bool.false_eq_true, if_false,
      List.append_eq]
    refine ⟨?_, ?_, ?_⟩
    · rw [ihr.1]
    · simp only [List.length_cons]
      rw [ihr.2.1]
    · exact ihr.2.2

/-- Witness for `C10_callback_exception`: one good cycle, one raising
cycle, one never-run cycle. -/
theorem C10_callback_exception_witness :
    (poll_loop 1 (fun _ => 0)
        [⟨fun _ => 1, false⟩, ⟨fun _ => 0, true⟩, ⟨fun _ => 1, false⟩]).2.1.length = 2 ∧
    (poll_loop 1 (fun _ => 0)
        [⟨fun _ => 1, false⟩, ⟨fun _ => 0, true⟩, ⟨fun _ => 1, false⟩]).2.2 = false := by
  have h := C10_callback_exception 1 (fun _ => 0) [⟨fun _ => 1, false⟩]
      ⟨fun _ => 0, true⟩ [⟨fun _ => 1, false⟩]
      (by intro x hx; rw [List.mem_singleton] at hx; subst hx; rfl) rfl
  exact ⟨h.2.1, h.2.2⟩

/-! ### C6 — motion accumulator -/

/-- C6: one accumulator update never drops motion (remainder plus emitted
whole part equals old accumulator plus delta) and the carried remainder is
a proper fraction; feeding the constant delta `0.3` for four cycles emits
the whole-unit parts `[0, 0, 0, 1]`, summing to exactly one unit; through
the full `_on_axes_update` pipeline (full deflection, `mouse_x`
sensitivity `18`, so `delta = 18/60 = 0.3` per cycle) the only call in
four cycles is `move_mouse_relative(1, 0)` on the fourth cycle. -/
theorem C6_accumulator :
    (∀ acc delta : ℚ,
      (acc_step acc delta).1 + (acc_step acc delta).2 = acc + delta ∧
      |(acc_step acc delta).1| < 1) ∧
    (run_acc 0 [3/10, 3/10, 3/10, 3/10]).2 = [0, 0, 0, 1] ∧
    ((run_acc 0 [3/10, 3/10, 3/10, 3/10]).2).sum = 1 ∧
    run_axes true
        [⟨0, 1, 0, ⟨"none", "", 600⟩, ⟨"none", "", 600⟩, ⟨"none", "", 600⟩,
          ⟨"mouse_x", "", 18⟩⟩]
        ⟨0, 0, 0, 0, ∅⟩ [[1, 0], [1, 0], [1, 0], [1, 0]]
      = Except.ok (⟨1/5, 0, 0, 0, ∅⟩,
          [(∅, ∅, []), (∅, ∅, []), (∅, ∅, []), (∅, ∅, [OutCall.moveRel 1 0])]) := by
  refine ⟨?_, ?_, ?_, ?_⟩
  · intro acc delta
    constructor
    · simp only [acc_step]
      ring
    · simp only [acc_step, pyInt]
      by_cases ha : 0 ≤ acc + delta
      · rw [if_pos ha, abs_lt]
        have h1 := Int.floor_le (acc + delta)
        have h2 := Int.sub_one_lt_floor (acc + delta)
        constructor <;> linarith
      · rw [if_neg ha, abs_lt]
        have h1 := Int.le_ceil (acc + delta)
        have h2 := Int.ceil_lt_add_one (acc + delta)
        constructor <;> linarith
  · norm_num [run_acc, acc_step, pyInt]
  · norm_num [run_acc, acc_step, pyInt]
  · norm_num [run_axes, on_axes_update, gatherSticks, processStick, pyGet,
      apply_deadzone, axisContinuous, addDelta, isContinuous, heldOne,
      acc_step, pyInt]

/-! ### C7, C9 — analog stick processor -/

lemma processStick_indep (e₁ e₂ : Bool) (axes : List ℚ) (stick : Stick) :
    (processStick e₁ axes stick).map Prod.snd
      = (processStick e₂ axes stick).map Prod.snd := by
  rw [processStick, processStick]
  by_cases h : stick.axis_x ≥ (axes.length : Int) ∨ stick.axis_y ≥ (axes.length : Int)
  · rw [if_pos h, if_pos h]
  · rw [if_neg h, if_neg h]
    rcases pyGet axes stick.axis_x with _ | vx
    · rfl
    · rcases pyGet axes stick.axis_y with _ | vy
      · rfl
      · rfl

lemma gatherSticks_indep (e₁ e₂ : Bool) (axes : List ℚ) :
    ∀ l : List Stick,
      (gatherSticks e₁ axes l).map Prod.snd
        = (gatherSticks e₂ axes l).map Prod.snd := by
  intro l
  induction l with
  | nil => rfl
  | cons s rest ih =>
    have hps := processStick_indep e₁ e₂ axes s
    rw [gatherSticks, gatherSticks]
    rcases h1 : processStick e₁ axes s with u | p1 <;>
      rcases h2 : processStick e₂ axes s with v | p2
    · rfl
    · rw [h1, h2] at hps
      simp [Except.map] at hps
    · rw [h1, h2] at hps
      simp [Except.map] at hps
    · rw [h1, h2] at hps
      obtain ⟨d1, held1⟩ := p1
      obtain ⟨d2, held2⟩ := p2
      simp only [Except.map, Except.ok.injEq] at hps
      rcases hg1 : gatherSticks e₁ axes rest with w | q1 <;>
        rcases hg2 : gatherSticks e₂ axes rest with x | q2
      · rfl
      · rw [hg1, hg2] at ih
        simp [Except.map] at ih
      · rw [hg1, hg2] at ih
        simp [Except.map] at ih
      · obtain ⟨dd1, hh1⟩ := q1
        obtain ⟨dd2, hh2⟩ := q2
        rw [hg1, hg2] at ih
        simp only [Except.map, Except.ok.injEq] at ih
        simp [Except.map, hps, ih]

lemma on_axes_update_fields (e : Bool) (sticks : List Stick) (axes : List ℚ)
    (st : AnalogState) (r : CycleResult)
    (h : on_axes_update e sticks axes st = Except.ok r) :
    ∃ d new, gatherSticks e axes sticks = Except.ok (d, new) ∧
      r.state.held = new ∧ r.keyUps = st.held \ new ∧ r.keyDowns = new \ st.held := by
  rw [on_axes_update] at h
  rcases hg : gatherSticks e axes sticks with u | p
  · rw [hg] at h
    simp at h
  · obtain ⟨d, new⟩ := p
    rw [hg] at h
    refine ⟨d, new, rfl, ?_⟩
    rcases e with _ | _
    · simp only [Bool.false_eq_true, if_false, Except.ok.injEq] at h
      rw [← h]
      exact ⟨rfl, rfl, rfl⟩
    · simp only [if_true, Except.ok.injEq] at h
      rw [← h]
      exact ⟨rfl, rfl, rfl⟩

/-- C7: the held-key set, the `key_combo_up` set and the `key_combo_down`
set computed by `_on_axes_update` do not depend on the analog `enabled`
flag; per cycle, a key receives `key_combo_down` exactly when it enters
the newly computed held set and `key_combo_up` exactly when it leaves it
(set difference of the new against the stored set); for an `up` binding
on key `"w"` whose deadzone-passing negated-y value is positive on cycles
1-3 and not on cycle 4, `key_combo_down("w")` is issued exactly on cycle 1
and `key_combo_up("w")` exactly on cycle 4. -/
theorem C7_directional_keys :
    (∀ (e₁ e₂ : Bool) (sticks : List Stick) (axes : List ℚ) (st : AnalogState)
        (r₁ r₂ : CycleResult),
      on_axes_update e₁ sticks axes st = Except.ok r₁ →
      on_axes_update e₂ sticks axes st = Except.ok r₂ →
      r₁.state.held = r₂.state.held ∧ r₁.keyUps = r₂.keyUps ∧
        r₁.keyDowns = r₂.keyDowns) ∧
    (∀ (e : Bool) (sticks : List Stick) (axes : List ℚ) (st : AnalogState)
        (r : CycleResult) (k : String),
      on_axes_update e sticks axes st = Except.ok r →
      ((k ∈ r.keyDowns ↔ k ∈ r.state.held ∧ k ∉ st.held) ∧
       (k ∈ r.keyUps ↔ k ∈ st.held ∧ k ∉ r.state.held))) ∧
    run_axes false
        [⟨0, 1, 15/100, ⟨"key", "w", 600⟩, ⟨"none", "", 600⟩, ⟨"none", "", 600⟩,
          ⟨"none", "", 600⟩⟩]
        ⟨0, 0, 0, 0, ∅⟩ [[0, -1], [0, -1], [0, -1], [0, 0]]
      = Except.ok (⟨0, 0, 0, 0, ∅⟩,
          [(∅, {"w"}, []), (∅, ∅, []), (∅, ∅, []), ({"w"}, ∅, [])]) := by
  refine ⟨?_, ?_, ?_⟩
  · intro e₁ e₂ sticks axes st r₁ r₂ h₁ h₂
    obtain ⟨d₁, n₁, hg₁, hh₁, hu₁, hd₁⟩ := on_axes_update_fields e₁ sticks axes st r₁ h₁
    obtain ⟨d₂, n₂, hg₂, hh₂, hu₂, hd₂⟩ := on_axes_update_fields e₂ sticks axes st r₂ h₂
    have hind := gatherSticks_indep e₁ e₂ axes sticks
    rw [hg₁, hg₂] at hind
    simp only [Except.map, Except.ok.injEq] at hind
    exact ⟨by rw [hh₁, hh₂, hind], by rw [hu₁, hu₂, hind], by rw [hd₁, hd₂, hind]⟩
  · intro e sticks axes st r k h
    obtain ⟨d, nw, hg, hh, hu, hd⟩ := on_axes_update_fields e sticks axes st r h
    rw [hd, hu, hh]
    exact ⟨Finset.mem_sdiff, Finset.mem_sdiff⟩
  · norm_num [run_axes, on_axes_update, gatherSticks, processStick, pyGet,
      apply_deadzone, axisContinuous, addDelta, isContinuous, heldOne,
      acc_step, pyInt, (show ("w" : String) ≠ "" by decide)]

/-- Witness for the quantified parts of `C7_directional_keys`, with no
sticks, a previously held key `"w"` and an empty new held set. -/
theorem C7_directional_keys_witness :
    ("w" ∈ (∅ : Finset String) ↔ "w" ∈ (∅ : Finset String) ∧
        "w" ∉ ({"w"} : Finset String)) ∧
    ("w" ∈ ({"w"} : Finset String) ↔ "w" ∈ ({"w"} : Finset String) ∧
        "w" ∉ (∅ : Finset String)) :=
  C7_directional_keys.2.1 false [] [] ⟨0, 0, 0, 0, {"w"}⟩
    ⟨⟨0, 0, 0, 0, ∅⟩, {"w"}, ∅, []⟩ "w" rfl

/-! ### C8 — listener start -/

/-- C8: with the listener not running, `start()` returns the
`NoDeviceFound` error exactly when zero devices are enumerated, the
`IndexOutOfRange` error exactly when the requested index is not below the
count, the `DeviceInitError` error exactly when the device handle cannot
be opened, and in the remaining case reports success and transitions to
running; every failure is a returned value of the total function, never a
raised exception. -/
theorem C8_start_error_results :
    ∀ (total index : Nat) (openOk : Bool),
      (total = 0 →
        startListener false total index openOk
          = ⟨false, some StartError.noDeviceFound, false⟩) ∧
      (0 < total → total ≤ index →
        startListener false total index openOk
          = ⟨false, some StartError.indexOutOfRange, false⟩) ∧
      (index < total → openOk = false →
        startListener false total index openOk
          = ⟨false, some StartError.deviceInitError, false⟩) ∧
      (index < total → openOk = true →
        startListener false total index openOk = ⟨true, none, true⟩) := by
  intro total index openOk
  refine ⟨?_, ?_, ?_, ?_⟩
  · intro h0
    rw [startListener, if_neg (by simp), if_pos h0]
  · intro hpos hle
    rw [startListener, if_neg (by simp), if_neg (by omega), if_pos hle]
  · intro hlt hok
    rw [startListener, if_neg (by simp), if_neg (by omega),
      if_neg (by omega), if_pos (by simp [hok])]
  · intro hlt hok
    rw [startListener, if_neg (by simp), if_neg (by omega),
      if_neg (by omega), if_neg (by simp [hok])]

/-- Witness for `C8_start_error_results` at each of the four cases. -/
theorem C8_start_error_results_witness :
    startListener false 0 0 true = ⟨false, some StartError.noDeviceFound, false⟩ ∧
    startListener false 2 5 true = ⟨false, some StartError.indexOutOfRange, false⟩ ∧
    startListener false 2 1 false = ⟨false, some StartError.deviceInitError, false⟩ ∧
    startListener false 2 1 true = ⟨true, none, true⟩ :=
  ⟨(C8_start_error_results 0 0 true).1 rfl,
   (C8_start_error_results 2 5 true).2.1 (by norm_num) (by norm_num),
   (C8_start_error_results 2 1 false).2.2.1 (by norm_num) rfl,
   (C8_start_error_results 2 1 true).2.2.2 (by norm_num) rfl⟩

/-! ### C9 — axis index range checking -/

lemma pyGet_eq_none_of_lt (l : List ℚ) (i : Int)
    (h : i < -(l.length : Int)) : pyGet l i = none := by
  have hlen : (0 : Int) ≤ (l.length : Int) := Int.natCast_nonneg _
  simp only [pyGet]
  rw [if_neg (by omega : ¬ (0 : Int) ≤ i),
    if_neg (by omega : ¬ (0 : Int) ≤ (l.length : Int) + i)]

lemma pyGet_in_range (l : List ℚ) (i : Int)
    (h1 : -(l.length : Int) ≤ i) (h2 : i < (l.length : Int)) :
    ∃ v, pyGet l i = some v := by
  simp only [pyGet]
  by_cases h0 : 0 ≤ i
  · rw [if_pos h0, if_pos h0]
    have hn : i.toNat < l.length := by omega
    exact ⟨l.get ⟨i.toNat, hn⟩, List.get?_eq_get hn⟩
  · rw [if_neg h0, if_pos (by omega : (0 : Int) ≤ (l.length : Int) + i)]
    have hn : ((l.length : Int) + i).toNat < l.length := by omega
    exact ⟨l.get ⟨((l.length : Int) + i).toNat, hn⟩, List.get?_eq_get hn⟩

/-- C9 counterexample: a stick whose `axis_y` is the negative index `-1`
is not skipped: with axis vector `[0, 0, 0, -1]` the access wraps around
to the last element (Python indexing) and the stick contributes the held
key `"w"`; and a stick whose `axis_x` is `-2` against a one-element
vector raises an `IndexError` that escapes the processor. -/
theorem C9_counterexample :
    processStick false [0, 0, 0, -1]
        ⟨0, -1, 0, ⟨"key", "w", 600⟩, ⟨"none", "", 600⟩, ⟨"none", "", 600⟩,
         ⟨"none", "", 600⟩⟩
      = Except.ok (⟨0, 0, 0, 0⟩, {"w"}) ∧
    processStick false [0]
        ⟨-2, 0, 0, ⟨"none", "", 600⟩, ⟨"none", "", 600⟩, ⟨"none", "", 600⟩,
         ⟨"none", "", 600⟩⟩
      = Except.error () := by
  constructor
  · rw [processStick, if_neg (by norm_num)]
    rw [show pyGet [0, 0, 0, -1] (0 : Int) = some 0 from rfl]
    rw [show pyGet [0, 0, 0, -1] (-1 : Int) = some (-1) from rfl]
    norm_num [apply_deadzone, heldOne, axisContinuous, isContinuous, addDelta,
      (show ("w" : String) ≠ "" by decide)]
  · norm_num [processStick, pyGet]

/-- C9 (amended): a stick is skipped (empty contribution) whenever either
axis index is `≥ len(axis_values)`; when both indices are `< len`, the
processor raises an `IndexError` exactly when either index is below
`-len`; and an index in `[-len, -1]` is resolved by Python wrap-around to
position `len + i` of the vector. -/
theorem C9_amended :
    ∀ (e : Bool) (axes : List ℚ) (stick : Stick),
      (stick.axis_x ≥ (axes.length : Int) ∨ stick.axis_y ≥ (axes.length : Int) →
        processStick e axes stick = Except.ok (⟨0, 0, 0, 0⟩, ∅)) ∧
      (stick.axis_x < (axes.length : Int) → stick.axis_y < (axes.length : Int) →
        (processStick e axes stick = Except.error ()
          ↔ stick.axis_x < -(axes.length : Int) ∨
            stick.axis_y < -(axes.length : Int))) ∧
      (∀ i : Int, -(axes.length : Int) ≤ i → i < 0 →
        pyGet axes i = axes.get? ((axes.length : Int) + i).toNat) := by
  intro e axes stick
  refine ⟨?_, ?_, ?_⟩
  · intro h
    rw [processStick, if_pos h]
  · intro hx hy
    rw [processStick, if_neg (not_or.2 ⟨not_le.2 hx, not_le.2 hy⟩)]
    constructor
    · intro herr
      by_contra hno
      push_neg at hno
      obtain ⟨hnx, hny⟩ := hno
      obtain ⟨vx, hvx⟩ := pyGet_in_range axes stick.axis_x hnx hx
      obtain ⟨vy, hvy⟩ := pyGet_in_range axes stick.axis_y hny hy
      rw [hvx, hvy] at herr
      simp at herr
    · intro hor
      rcases hor with h | h
      · rw [pyGet_eq_none_of_lt axes stick.axis_x h]
      · by_cases hx2 : stick.axis_x < -(axes.length : Int)
        · rw [pyGet_eq_none_of_lt axes stick.axis_x hx2]
        · push_neg at hx2
          obtain ⟨vx, hvx⟩ := pyGet_in_range axes stick.axis_x hx2 hx
          rw [hvx, pyGet_eq_none_of_lt axes stick.axis_y h]
  · intro i h1 h2
    simp only [pyGet]
    rw [if_neg (not_le.2 h2), if_pos (by omega : (0 : Int) ≤ (axes.length : Int) + i)]

/-- Witness for `C9_amended`: against an empty axis vector, index `0` is
out of range and the stick is skipped with an empty contribution. -/
theorem C9_amended_witness :
    processStick true []
        ⟨0, 0, 0, ⟨"none", "", 600⟩, ⟨"none", "", 600⟩, ⟨"none", "", 600⟩,
         ⟨"none", "", 600⟩⟩
      = Except.ok (⟨0, 0, 0, 0⟩, ∅) :=
  (C9_amended true []
    ⟨0, 0, 0, ⟨"none", "", 600⟩, ⟨"none", "", 600⟩, ⟨"none", "", 600⟩,
     ⟨"none", "", 600⟩⟩).1 (Or.inl (by norm_num))
